import Mathlib

/-!
Shallow embedding of the data-organizer application's plan-building,
plan-execution, activity-ledger and date-bucketing logic, together with
theorems checking the natural-language specification against it.

Sources embedded:
* `src/services/aiService.ts` (`createArchivePlan`)
* `src/services/fileOrganizer.ts` (`sanitizeFolderName`, `isLocationSelected`)
* `src/components/PlanExecutor.tsx` (`executeStep`, `startExecution`, `stopExecution`)
* `src/contexts/AppContext.tsx` (`appReducer`)
* `src/services/activityManager.ts` (`addActivity`)
* `ActivityHistory` component (`groupedActivities` date bucketing)

Modelling conventions: JavaScript numbers used as sizes/counts become `Nat`,
confidences become `ℚ`, strings become `String` (lists of unicode scalar
values; `substring` counts UTF-16 units in JS, which agrees on the basic
multilingual plane), and stateful React component code becomes explicit
state passing on a state record, with each `setX` call an update of the
corresponding field.
-/

namespace DataOrganizer

/-! ## Folder-name sanitization (`fileOrganizer.ts`, `sanitizeFolderName`) -/

/-- Characters removed by the sanitizer's first regex, `[<>:"/\\|?*]`. -/
def illegalChar (c : Char) : Bool :=
  c = '<' || c = '>' || c = ':' || c = '"' || c = '/' || c = '\\' || c = '|' || c = '?' || c = '*'

/-- One step of `.replace(/[<>:"/\\|?*]/g, '_')`: each illegal character
becomes an underscore. -/
def replaceIllegalChar (c : Char) : Char :=
  if illegalChar c then '_' else c

/-- Embedding of `.replace(/\s+/g, '_')`: every maximal run of whitespace
characters collapses to a single underscore.  The boolean records whether the
previous character was part of a whitespace run. -/
def collapseWhitespace : Bool → List Char → List Char
  | _, [] => []
  | prevWs, c :: cs =>
    if c.isWhitespace then
      (if prevWs then collapseWhitespace true cs else '_' :: collapseWhitespace true cs)
    else
      c :: collapseWhitespace false cs

/-- Default (non-locale) Unicode full lowercasing of one code point, as
`String.prototype.toLowerCase` applies it to each character.  The only
length-changing lowercase mapping in Unicode's SpecialCasing is
U+0130 (LATIN CAPITAL LETTER I WITH DOT ABOVE) → U+0069 U+0307, modelled
explicitly; every other code point lowercases to a single code point via the
simple case map, modelled by `Char.toLower` (exact on the ASCII range this
development evaluates; code points outside it map to themselves). -/
def jsToLowerChar (c : Char) : List Char :=
  if c = 'İ' then ['i', '\u0307'] else [Char.toLower c]

/-- The character-list transformation of `sanitizeFolderName`: replace
illegal characters with `_`, collapse whitespace runs to `_`, truncate to 50
characters (`substring(0, 50)`), then lowercase each remaining character
with `jsToLowerChar` — so lowercasing runs after the truncation and can
lengthen the result past 50 characters. -/
def sanitizeChars (l : List Char) : List Char :=
  (List.take 50 (collapseWhitespace false (List.map replaceIllegalChar l))).flatMap
    jsToLowerChar

/-- Embedding of `sanitizeFolderName` (`fileOrganizer.ts` lines 162-169). -/
def sanitizeFolderName (name : String) : String :=
  String.mk (sanitizeChars name.data)

/-! ## Data model (`types/archiver.ts`) -/

/-- Action kinds allowed for a `FolderPlan` file entry
(`'move' | 'copy' | 'link' | 'ignore'`). -/
inductive FileActionKind
  | move
  | copy
  | link
  | ignore
deriving DecidableEq, Repr

/-- The runtime string value of a `FileActionKind` (TypeScript union members
are plain strings at runtime). -/
def FileActionKind.toStr : FileActionKind → String
  | .move => "move"
  | .copy => "copy"
  | .link => "link"
  | .ignore => "ignore"

/-- One per-file entry of a `FolderPlan` (`files` array element). -/
structure FileAction where
  path : String
  action : FileActionKind
  reason : String
  confidence : ℚ
deriving DecidableEq, Repr

/-- A recommended folder with its file assignments (`FolderPlan`). -/
structure FolderPlan where
  name : String
  display_name : Option String
  rationale : String
  confidence : ℚ
  files : List FileAction
deriving DecidableEq, Repr

/-- A flagged sensitive file (`SensitiveFile`). -/
structure SensitiveFile where
  path : String
  type : String
  advice : String
deriving DecidableEq, Repr

/-- The parsed classification result consumed by `createArchivePlan`
(the JSON shape required from the AI provider). -/
structure AIResult where
  folders : List FolderPlan
  detected_topics : List String
  sensitive_files : List SensitiveFile
deriving DecidableEq, Repr

/-- Metadata of one uploaded file (`FileMetadata`). -/
structure FileMetadata where
  path : String
  mime : String
  size : Nat
  mtime : String
  sha256 : String
  excerpt : String
deriving DecidableEq, Repr

/-- One executable step of a plan (`Operation`).  The `op` field is kept as
the runtime string: file operations copy the classifier's action string
through the TypeScript cast `file.action as 'move' | 'copy' | 'link'`. -/
structure Operation where
  op : String
  target : String
  items : List String
  note : Option String
  size_change : Nat
deriving DecidableEq, Repr

/-- The plan summary block (`ArchivePlan.summary`). -/
structure PlanSummary where
  total_files : Nat
  total_size : Nat
  detected_topics : List String
  sensitive_count : Nat
  recommended_folders : Nat
deriving DecidableEq, Repr

/-- The plan metrics block (`ArchivePlan.metrics`). -/
structure PlanMetrics where
  confidence_mean : ℚ
  folders_created : Nat
  files_moved : Nat
deriving DecidableEq, Repr

/-- Rollback metadata (`ArchivePlan.rollback`). -/
structure RollbackInfo where
  instructions : List String
  timestamped_log_reference : String
deriving DecidableEq, Repr

/-- Deduplication report (`ArchivePlan.dedupe`); `createArchivePlan` always
produces an empty report. -/
structure DedupeReport where
  duplicates : List String
  strategy_used : String
deriving DecidableEq, Repr

/-- The aggregate archive plan (`ArchivePlan`).  The constant `config_used`
block is represented by the fields the source writes into it. -/
structure ArchivePlan where
  root_path : String
  summary : PlanSummary
  folders : List FolderPlan
  operations : List Operation
  dedupe : DedupeReport
  sensitive : List SensitiveFile
  rollback : RollbackInfo
  metrics : PlanMetrics
  errors : List String
deriving DecidableEq, Repr

/-! ## Plan Builder (`aiService.ts`, `createArchivePlan`, lines 199-276) -/

/-- The `create_folder` operation synthesized for one folder
(`createArchivePlan`, lines 205-210). -/
def mkCreateFolderOp (folder : FolderPlan) : Operation :=
  { op := "create_folder", target := folder.name, items := [], note := none, size_change := 0 }

/-- The per-file operation synthesized for one `FileAction` of a folder
(`createArchivePlan`, lines 211-220): `size_change` is the source file's size
for a copy, `0` otherwise (`files.find(...)?.size || 0`). -/
def mkFileOp (files : List FileMetadata) (folder : FolderPlan) (file : FileAction) : Operation :=
  { op := file.action.toStr
    target := folder.name
    items := [file.path]
    note := none
    size_change :=
      if file.action = .copy then
        ((files.find? (fun f => f.path = file.path)).map (fun f => f.size)).getD 0
      else 0 }

/-- The list of all folder and file confidences (`allConfidences`,
lines 224-227). -/
def allConfidences (aiResult : AIResult) : List ℚ :=
  aiResult.folders.map (fun f => f.confidence)
    ++ aiResult.folders.flatMap (fun f => f.files.map (fun file => file.confidence))

/-- Embedding of `createArchivePlan` (`aiService.ts` lines 199-276).
`now` stands for `Date.now()` in the rollback log reference. -/
def createArchivePlan (files : List FileMetadata) (aiResult : AIResult) (now : Nat) :
    ArchivePlan :=
  let folders := aiResult.folders
  let totalSize := files.foldl (fun acc f => acc + f.size) 0
  let operations :=
    folders.map mkCreateFolderOp
      ++ folders.flatMap (fun folder => folder.files.map (mkFileOp files folder))
  let confs := allConfidences aiResult
  let confidence_mean : ℚ := if confs.length > 0 then confs.sum / confs.length else 0
  { root_path := "/analyzed-files"
    summary :=
      { total_files := files.length
        total_size := totalSize
        detected_topics := aiResult.detected_topics
        sensitive_count := aiResult.sensitive_files.length
        recommended_folders := folders.length }
    folders := folders
    operations := operations
    dedupe := { duplicates := [], strategy_used := "keep-one" }
    sensitive := aiResult.sensitive_files
    rollback :=
      { instructions :=
          ["All operations are logged with timestamps",
           "Use 'Undo Archive' to restore original structure",
           "Backup created before execution"]
        timestamped_log_reference := "archive_" ++ toString now }
    metrics :=
      { confidence_mean := confidence_mean
        folders_created := folders.length
        files_moved := folders.foldl (fun acc f => acc + f.files.length) 0 }
    errors := [] }

/-! ## Activity ledger (`types/archiver.ts`, `activityManager.ts`, `AppContext.tsx`) -/

/-- The `ActivityType` enum. -/
inductive ActivityType
  | file_upload
  | file_analysis
  | plan_generated
  | plan_saved
  | plan_executed
  | plan_cancelled
  | ai_connected
  | ai_disconnected
  | folder_created
  | file_moved
  | error
deriving DecidableEq, Repr

/-- The `OperationStatus` enum shared by execution steps and activity
records. -/
inductive OperationStatus
  | pending
  | in_progress
  | completed
  | failed
  | cancelled
  | rolled_back
deriving DecidableEq, Repr

/-- Optional metadata bag of an `ActivityRecord`. -/
structure ActivityMetadata where
  fileCount : Option Nat
  folderCount : Option Nat
  provider : Option String
  planId : Option String
  error : Option String
  hash : Option String
deriving DecidableEq, Repr

/-- A stamped activity record (`ActivityRecord`). -/
structure ActivityRecord where
  id : String
  type : ActivityType
  timestamp : String
  status : OperationStatus
  title : String
  description : String
  metadata : Option ActivityMetadata
deriving DecidableEq, Repr

/-- The unstamped part of an activity (`Omit<ActivityRecord, 'id' | 'timestamp'>`). -/
structure ActivityInput where
  type : ActivityType
  status : OperationStatus
  title : String
  description : String
  metadata : Option ActivityMetadata
deriving DecidableEq, Repr

/-- Embedding of `addActivity` (`activityManager.ts` lines 3-11): stamps an id
built from the current epoch milliseconds `nowMs` and a random suffix `rand`,
and a timestamp.  `new Date().toISOString()` is modelled by rendering the same
clock value `nowMs`. -/
def addActivity (nowMs : Nat) (rand : String) (activity : ActivityInput) : ActivityRecord :=
  { id := "activity_" ++ toString nowMs ++ "_" ++ rand
    timestamp := toString nowMs
    type := activity.type
    status := activity.status
    title := activity.title
    description := activity.description
    metadata := activity.metadata }

/-- An AI provider entry (`AIProvider`). -/
structure AIProvider where
  id : String
  name : String
  apiKey : String
  baseUrl : Option String
  model : Option String
  isConnected : Bool
deriving DecidableEq, Repr

/-- A `Partial<AIProvider>` update object. -/
structure AIProviderUpdate where
  id : Option String
  name : Option String
  apiKey : Option String
  baseUrl : Option (Option String)
  model : Option (Option String)
  isConnected : Option Bool
deriving DecidableEq, Repr

/-- Object-spread merge `{ ...provider, ...updates }` for a provider. -/
def applyProviderUpdate (p : AIProvider) (u : AIProviderUpdate) : AIProvider :=
  { id := u.id.getD p.id
    name := u.name.getD p.name
    apiKey := u.apiKey.getD p.apiKey
    baseUrl := u.baseUrl.getD p.baseUrl
    model := u.model.getD p.model
    isConnected := u.isConnected.getD p.isConnected }

/-- A saved plan with its save metadata (`SavedArchivePlan`). -/
structure SavedArchivePlan where
  id : String
  name : String
  createdAt : String
  plan : ArchivePlan
deriving DecidableEq, Repr

/-- The application state handled by `appReducer` (`AppState`). -/
structure AppState where
  currentProvider : Option AIProvider
  providers : List AIProvider
  currentPlan : Option ArchivePlan
  savedPlans : List SavedArchivePlan
  activityHistory : List ActivityRecord
  isAnalyzing : Bool
  isPlanExecuting : Bool
deriving DecidableEq, Repr

/-- A `Partial<AppState>` payload for `LOAD_STATE`. -/
structure AppStateUpdate where
  currentProvider : Option (Option AIProvider)
  providers : Option (List AIProvider)
  currentPlan : Option (Option ArchivePlan)
  savedPlans : Option (List SavedArchivePlan)
  activityHistory : Option (List ActivityRecord)
  isAnalyzing : Option Bool
  isPlanExecuting : Option Bool
deriving DecidableEq, Repr

/-- The reducer action union (`AppAction`). -/
inductive AppAction
  | SET_CURRENT_PROVIDER (payload : Option AIProvider)
  | UPDATE_PROVIDER (providerId : String) (updates : AIProviderUpdate)
  | SET_CURRENT_PLAN (payload : Option ArchivePlan)
  | SAVE_PLAN (payload : SavedArchivePlan)
  | DELETE_SAVED_PLAN (payload : String)
  | ADD_ACTIVITY (payload : ActivityRecord)
  | CLEAR_HISTORY
  | SET_ANALYZING (payload : Bool)
  | SET_PLAN_EXECUTING (payload : Bool)
  | LOAD_STATE (payload : AppStateUpdate)

/-- Embedding of `appReducer` (`AppContext.tsx` lines 45-96).  The
`ADD_ACTIVITY` case prepends the payload and keeps the first 99 previous
records (`[action.payload, ...state.activityHistory.slice(0, 99)]`). -/
def appReducer (state : AppState) : AppAction → AppState
  | .SET_CURRENT_PROVIDER p => { state with currentProvider := p }
  | .UPDATE_PROVIDER providerId updates =>
    { state with
      providers := state.providers.map (fun provider =>
        if provider.id = providerId then applyProviderUpdate provider updates else provider) }
  | .SET_CURRENT_PLAN p => { state with currentPlan := p }
  | .SAVE_PLAN p => { state with savedPlans := state.savedPlans ++ [p] }
  | .DELETE_SAVED_PLAN planId =>
    { state with savedPlans := state.savedPlans.filter (fun plan => ¬ plan.id = planId) }
  | .ADD_ACTIVITY payload =>
    { state with activityHistory := payload :: state.activityHistory.take 99 }
  | .CLEAR_HISTORY => { state with activityHistory := [] }
  | .SET_ANALYZING b => { state with isAnalyzing := b }
  | .SET_PLAN_EXECUTING b => { state with isPlanExecuting := b }
  | .LOAD_STATE payload =>
    { currentProvider := payload.currentProvider.getD state.currentProvider
      providers := payload.providers.getD state.providers
      currentPlan := payload.currentPlan.getD state.currentPlan
      savedPlans := payload.savedPlans.getD state.savedPlans
      activityHistory := payload.activityHistory.getD state.activityHistory
      isAnalyzing := payload.isAnalyzing.getD state.isAnalyzing
      isPlanExecuting := payload.isPlanExecuting.getD state.isPlanExecuting }

/-! ## Execution engine (`PlanExecutor.tsx`)

The component's `useState` cells become fields of `ExecState`; each state
setter call becomes a functional update.  A step's outcome is driven by a
`throwOracle`: `none` means the step's body runs to completion, `some e`
means it throws the JavaScript value `e`, where `some msg` stands for an
`Error` with message `msg` and `none` for a non-`Error` thrown value. -/

/-- One execution step (`ExecutionStep` interface). -/
structure ExecutionStep where
  id : String
  operation : Operation
  status : OperationStatus
  progress : Nat
  error : Option String
deriving DecidableEq, Repr

/-- A thrown JavaScript value: `some msg` is an `Error` with that message,
`none` any non-`Error` value. -/
abbrev JsThrown := Option String

/-- The message recorded by a catch block,
`error instanceof Error ? error.message : 'Unknown error'`. -/
def caughtMessage (e : JsThrown) : String :=
  match e with
  | some msg => msg
  | none => "Unknown error"

/-- The executor's state cells (`useState` hooks of `PlanExecutor`), plus the
`fileOrganizer.isLocationSelected()` flag the component consults. -/
structure ExecState where
  isExecuting : Bool
  isPaused : Bool
  currentStep : Nat
  steps : List ExecutionStep
  overallProgress : ℚ
  locationSelected : Bool
deriving DecidableEq, Repr

/-- Steps created from the plan's operations on mount
(`PlanExecutor` lines 40-49): `id = step-<index>`, status pending,
progress 0. -/
def initStepsFrom : Nat → List Operation → List ExecutionStep
  | _, [] => []
  | i, op :: rest =>
    { id := "step-" ++ toString i, operation := op, status := .pending,
      progress := 0, error := none } :: initStepsFrom (i + 1) rest

/-- The executor state as it is before `startExecution` is invoked on a fresh
plan. -/
def initExecState (ops : List Operation) (locationSelected : Bool) : ExecState :=
  { isExecuting := false, isPaused := false, currentStep := 0,
    steps := initStepsFrom 0 ops, overallProgress := 0,
    locationSelected := locationSelected }

/-- Pointwise update of the step at one index, the
`prev.map((s, i) => i === stepIndex ? ... : s)` pattern used by every
`setSteps` call. -/
def updateStep (f : ExecutionStep → ExecutionStep) : Nat → List ExecutionStep → List ExecutionStep
  | _, [] => []
  | 0, st :: rest => f st :: rest
  | i + 1, st :: rest => st :: updateStep f i rest

/-- First `setSteps` of `executeStep` (lines 81-85): mark the step
in-progress with progress 0. -/
def beginStep (i : Nat) (s : ExecState) : ExecState :=
  { s with steps := updateStep (fun st => { st with status := .in_progress, progress := 0 }) i s.steps }

/-- Progress tick `setSteps` of `executeStep` (lines 102-106). -/
def setStepProgress (i : Nat) (p : Nat) (s : ExecState) : ExecState :=
  { s with steps := updateStep (fun st => { st with progress := p }) i s.steps }

/-- Success `setSteps` of `executeStep` (lines 112-116): completed,
progress 100. -/
def completeStep (i : Nat) (s : ExecState) : ExecState :=
  { s with steps := updateStep (fun st => { st with status := .completed, progress := 100 }) i s.steps }

/-- Catch-branch `setSteps` of `executeStep` (lines 127-135): failed with the
caught message; progress is left as the catch block found it. -/
def failStep (i : Nat) (msg : String) (s : ExecState) : ExecState :=
  { s with steps := updateStep (fun st => { st with status := .failed, error := some msg }) i s.steps }

/-- Embedding of `executeStep` (`PlanExecutor.tsx` lines 77-138).  Returns the
new state and the boolean result.  A missing step (`if (!step) return false`)
changes nothing.  On the success path the simulated progress loop ends at 100
before the step is marked completed; on a throw the catch block records the
failure. -/
def executeStep (oracle : Nat → Option JsThrown) (i : Nat) (s : ExecState) : ExecState × Bool :=
  match s.steps[i]? with
  | none => (s, false)
  | some _ =>
    match oracle i with
    | some e => (failStep i (caughtMessage e) (beginStep i s), false)
    | none => (completeStep i (setStepProgress i 100 (beginStep i s)), true)

/-- The `setOverallProgress(((i + 1) / steps.length) * 100)` update at the end
of each loop iteration (line 176). -/
def recordOverall (i : Nat) (s : ExecState) : ExecState :=
  { s with overallProgress := (((i : ℚ) + 1) / s.steps.length) * 100 }

/-- The `setCurrentStep(i)` update (line 167). -/
def setCurrent (i : Nat) (s : ExecState) : ExecState :=
  { s with currentStep := i }

/-- The execution loop of `startExecution` (lines 164-177): starting at index
`i` with `fuel` iterations remaining, check the `isExecuting` flag, run the
step, then record overall progress. -/
def runFrom (oracle : Nat → Option JsThrown) : Nat → Nat → ExecState → ExecState
  | 0, _, s => s
  | fuel + 1, i, s =>
    if s.isExecuting then
      runFrom oracle fuel (i + 1) (recordOverall i (executeStep oracle i (setCurrent i s)).1)
    else s

/-- The failure mode of `start()` when no target location is selected. -/
inductive StartError
  | noLocationSelected
deriving DecidableEq, Repr

/-- Embedding of `startExecution` (`PlanExecutor.tsx` lines 140-203): refuse
when `fileOrganizer.isLocationSelected()` is false, otherwise set the
executing flag, run every step in order, and clear the flag. -/
def startExecution (oracle : Nat → Option JsThrown) (s : ExecState) :
    ExecState × Option StartError :=
  if s.locationSelected then
    let s1 := { s with isExecuting := true }
    let s2 := runFrom oracle s1.steps.length 0 s1
    ({ s2 with isExecuting := false }, none)
  else (s, some .noLocationSelected)

/-- Embedding of `stopExecution` (`PlanExecutor.tsx` lines 215-238): clear the
executing and paused flags and mark every pending or in-progress step
cancelled.  `overallProgress` is not recomputed. -/
def stopExecution (s : ExecState) : ExecState :=
  { s with
    isExecuting := false
    isPaused := false
    steps := s.steps.map (fun st =>
      if st.status = .in_progress ∨ st.status = .pending then
        { st with status := .cancelled }
      else st) }

/-! ## Date bucketing (`ActivityHistory` component, `groupedActivities`)

Timestamps are minutes of local civil time since an epoch midnight, with
1440-minute days and no daylight-saving shifts, so `date-fns`'s `isToday`,
`isYesterday` and `subDays` become calendar-day arithmetic.  The rendered
group header is abstracted by `DateBucket`: the `weekday` and `absolute`
constructors carry the activity's calendar day, from which `format(date,
'EEEE')` and `format(date, 'MMM d, yyyy')` render the header text. -/

/-- Calendar day index of a timestamp in minutes. -/
def calendarDay (t : Nat) : Nat := t / 1440

/-- Model of `date-fns` `isToday`: same calendar day as the viewing time. -/
def isToday (d now : Nat) : Bool := calendarDay d == calendarDay now

/-- Model of `date-fns` `isYesterday`: the calendar day before the viewing
time's. -/
def isYesterday (d now : Nat) : Bool := calendarDay d + 1 == calendarDay now

/-- Model of `date-fns` `subDays(t, n)`: the same clock time `n` days
earlier. -/
def subDays (t n : Nat) : Nat := t - n * 1440

/-- The group header of the activity list, abstracted. -/
inductive DateBucket
  | today
  | yesterday
  | weekday (day : Nat)
  | absolute (day : Nat)
deriving DecidableEq, Repr

/-- Embedding of the `dateKey` computation of `groupedActivities`
(`ActivityHistory`, lines 66-85). -/
def dateKey (now activity : Nat) : DateBucket :=
  if isToday activity now then .today
  else if isYesterday activity now then .yesterday
  else if activity > subDays now 7 then .weekday (calendarDay activity)
  else .absolute (calendarDay activity)

/-! ## Helper lemmas about the Plan Builder -/

/-- A create-folder operation carries the tag `"create_folder"` and the raw
folder name. -/
lemma mkCreateFolderOp_op (folder : FolderPlan) :
    (mkCreateFolderOp folder).op = "create_folder" := rfl

/-- No file-action string is `"create_folder"`. -/
lemma toStr_ne_create_folder (a : FileActionKind) : a.toStr ≠ "create_folder" := by
  cases a <;> decide

/-- File operations synthesized from folder entries are never create-folder
operations. -/
lemma mkFileOp_op_ne_create_folder (files : List FileMetadata) (folder : FolderPlan)
    (file : FileAction) : (mkFileOp files folder file).op ≠ "create_folder" :=
  toStr_ne_create_folder file.action

/-- The operations list of a built plan, unfolded. -/
lemma createArchivePlan_operations (files : List FileMetadata) (aiR : AIResult) (now : Nat) :
    (createArchivePlan files aiR now).operations
      = aiR.folders.map mkCreateFolderOp
        ++ aiR.folders.flatMap (fun folder => folder.files.map (mkFileOp files folder)) := rfl

/-- The confidence mean of a built plan, unfolded. -/
lemma createArchivePlan_confidence_mean (files : List FileMetadata) (aiR : AIResult) (now : Nat) :
    (createArchivePlan files aiR now).metrics.confidence_mean
      = if (allConfidences aiR).length > 0 then
          (allConfidences aiR).sum / (allConfidences aiR).length
        else 0 := rfl

/-- File operations never pass the create-folder filter. -/
lemma filter_create_folder_fileOps (files : List FileMetadata) (folders : List FolderPlan) :
    (folders.flatMap (fun folder => folder.files.map (mkFileOp files folder))).filter
      (fun o => o.op == "create_folder") = [] := by
  rw [List.filter_eq_nil_iff]
  intro o ho
  obtain ⟨folder, -, hf⟩ := List.mem_flatMap.mp ho
  obtain ⟨file, -, rfl⟩ := List.mem_map.mp hf
  simpa using mkFileOp_op_ne_create_folder files folder file

/-- Example classification whose two raw folder names sanitize to the same
string. -/
def collidingFoldersResult : AIResult :=
  { folders :=
      [ { name := "My Docs", display_name := none, rationale := "documents", confidence := 1,
          files := [{ path := "a.txt", action := .move, reason := "doc", confidence := 1 }] },
        { name := "My  Docs", display_name := none, rationale := "documents", confidence := 1,
          files := [{ path := "b.txt", action := .move, reason := "doc", confidence := 1 }] } ]
    detected_topics := []
    sensitive_files := [] }

/-- Example classification that places a flagged sensitive file inside a
folder. -/
def sensitiveOverlapResult : AIResult :=
  { folders :=
      [ { name := "Documents", display_name := none, rationale := "documents", confidence := 1,
          files := [{ path := "secret.txt", action := .move, reason := "doc", confidence := 1 }] } ]
    detected_topics := []
    sensitive_files := [{ path := "secret.txt", type := "password-file", advice := "Handle with care" }] }

/-- Example classification with one folder (confidence 1/2) holding one file
action (confidence 1/4). -/
def singleFolderResult : AIResult :=
  { folders :=
      [ { name := "Reports", display_name := none, rationale := "reports", confidence := 1/2,
          files := [{ path := "q1.pdf", action := .move, reason := "report", confidence := 1/4 }] } ]
    detected_topics := []
    sensitive_files := [] }

/-! ## C1 -/

/-- C1 as stated is false on the code: `createArchivePlan` targets operations
at raw folder names and never deduplicates, so the classification
`collidingFoldersResult` — two distinct raw names that sanitize to the same
string — yields two create_folder operations for the single distinct
sanitized folder name, not exactly one. -/
theorem c1_counterexample :
    sanitizeFolderName "My Docs" = sanitizeFolderName "My  Docs"
    ∧ "My Docs" ≠ "My  Docs"
    ∧ ((createArchivePlan [] collidingFoldersResult 0).operations.filter
        (fun o => o.op == "create_folder"
          && sanitizeFolderName o.target == sanitizeFolderName "My Docs")).length = 2 := by
  refine ⟨by decide, by decide, by decide⟩

/-- C1 (amended): the operations list contains exactly one create_folder per
folder entry of the classification result, targeting the raw (unsanitized)
folder name — so raw names colliding after sanitization yield duplicate
create_folder operations — and every operation that is not a create_folder is
preceded by a create_folder operation with the same target. -/
theorem c1_create_folder_per_raw_folder (files : List FileMetadata) (aiR : AIResult) (now : Nat) :
    (((createArchivePlan files aiR now).operations.filter
        (fun o => o.op == "create_folder")).map (fun o => o.target))
      = aiR.folders.map (fun f => f.name)
    ∧ ∀ (j : Nat) (o : Operation), (createArchivePlan files aiR now).operations[j]? = some o →
        o.op ≠ "create_folder" →
        ∃ (i : Nat) (co : Operation), i < j
          ∧ (createArchivePlan files aiR now).operations[i]? = some co
          ∧ co.op = "create_folder" ∧ co.target = o.target := by
  constructor
  · rw [createArchivePlan_operations, List.filter_append, filter_create_folder_fileOps,
      List.append_nil, List.filter_map]
    have hpred : ((fun o => o.op == "create_folder") ∘ mkCreateFolderOp) = fun _ => true := by
      funext folder
      simp [mkCreateFolderOp]
    rw [hpred, List.filter_true, List.map_map]
    rfl
  · intro j o hj hop
    rw [createArchivePlan_operations] at hj
    have hlen : (aiR.folders.map mkCreateFolderOp).length = aiR.folders.length := by
      simp
    have hge : aiR.folders.length ≤ j := by
      by_contra hlt
      push_neg at hlt
      rw [List.getElem?_append_left (by simpa using hlt)] at hj
      rw [List.getElem?_map] at hj
      obtain ⟨folder, hfolder, heq⟩ := Option.map_eq_some'.mp hj
      exact hop (heq ▸ rfl)
    rw [List.getElem?_append_right (by simpa using hge)] at hj
    have hmem : o ∈ aiR.folders.flatMap (fun folder => folder.files.map (mkFileOp files folder)) := by
      have := List.getElem?_eq_some_iff.mp hj
      obtain ⟨hlt, heq⟩ := this
      exact heq ▸ List.getElem_mem hlt
    obtain ⟨folder, hfolderMem, hfo⟩ := List.mem_flatMap.mp hmem
    obtain ⟨file, -, rfl⟩ := List.mem_map.mp hfo
    obtain ⟨k, hk⟩ := List.getElem?_of_mem hfolderMem
    have hklt : k < aiR.folders.length := by
      rcases List.getElem?_eq_some_iff.mp hk with ⟨h, -⟩
      exact h
    refine ⟨k, mkCreateFolderOp folder, lt_of_lt_of_le hklt hge, ?_, rfl, rfl⟩
    rw [createArchivePlan_operations,
      List.getElem?_append_left (by simpa using hklt), List.getElem?_map, hk]
    rfl

/-- Witness for the amended C1 at a concrete plan: operation 2 of the plan
built from `collidingFoldersResult` is a move, and a create_folder with the
same target precedes it. -/
theorem c1_create_folder_per_raw_folder_witness :
    ((createArchivePlan [] collidingFoldersResult 0).operations[2]? =
      some { op := "move", target := "My Docs", items := ["a.txt"], note := none, size_change := 0 })
    ∧ ∃ i co, i < 2
        ∧ (createArchivePlan [] collidingFoldersResult 0).operations[i]? = some co
        ∧ co.op = "create_folder"
        ∧ co.target = Operation.target
            { op := "move", target := "My Docs", items := ["a.txt"], note := none, size_change := 0 } :=
  ⟨by decide,
    (c1_create_folder_per_raw_folder [] collidingFoldersResult 0).2 2
      { op := "move", target := "My Docs", items := ["a.txt"], note := none, size_change := 0 }
      (by decide) (by decide)⟩

/-! ## C2 -/

/-- C2 as stated is false on the code: `createArchivePlan` copies
`aiResult.sensitive_files` into `sensitive[]` but performs no filtering of
`operations[]`, so a file both flagged sensitive and assigned to a folder
appears in an operation's items. -/
theorem c2_counterexample :
    ((createArchivePlan [] sensitiveOverlapResult 0).sensitive.map (fun s => s.path))
      = ["secret.txt"]
    ∧ ∃ o ∈ (createArchivePlan [] sensitiveOverlapResult 0).operations,
        "secret.txt" ∈ o.items := by
  refine ⟨rfl, by decide⟩

/-- C2 (amended): the plan's `sensitive[]` list is exactly the classifier's
`sensitive_files`, and the items of `operations[]` are exactly the paths of
every file the classifier assigned to a folder, with no sensitive-file
filtering applied. -/
theorem c2_no_sensitive_filtering (files : List FileMetadata) (aiR : AIResult) (now : Nat) :
    (createArchivePlan files aiR now).sensitive = aiR.sensitive_files
    ∧ ((createArchivePlan files aiR now).operations.flatMap (fun o => o.items))
        = aiR.folders.flatMap (fun f => f.files.map (fun fa => fa.path)) := by
  refine ⟨rfl, ?_⟩
  rw [createArchivePlan_operations, List.flatMap_append]
  have h1 : ((aiR.folders.map mkCreateFolderOp).flatMap (fun o => o.items)) = [] := by
    induction aiR.folders with
    | nil => rfl
    | cons folder rest ih =>
      rw [List.map_cons, List.flatMap_cons]
      exact ih
  rw [h1, List.nil_append, List.flatMap_assoc]
  congr 1
  funext folder
  rw [List.flatMap_map, List.map_eq_flatMap]
  rfl

/-! ## C3 -/

/-- C3 as stated is false on the code: the plan's folder list is the raw
classification's folder list, so the two distinct raw names of
`collidingFoldersResult` that sanitize identically stay two separate
FolderPlans instead of being merged into a single one. -/
theorem c3_counterexample :
    sanitizeFolderName "My Docs" = sanitizeFolderName "My  Docs"
    ∧ "My Docs" ≠ "My  Docs"
    ∧ ((createArchivePlan [] collidingFoldersResult 0).folders.filter
        (fun f => sanitizeFolderName f.name == sanitizeFolderName "My Docs")).length = 2 := by
  refine ⟨by decide, by decide, by decide⟩

/-- C3 (amended): the Plan Builder performs no merging at all — the plan's
folder list is exactly the classification result's folder list, so raw names
that sanitize identically remain distinct FolderPlans. -/
theorem c3_folders_unmerged (files : List FileMetadata) (aiR : AIResult) (now : Nat) :
    (createArchivePlan files aiR now).folders = aiR.folders := rfl

/-! ## C7 -/

/-- C7: `confidence_mean` is the unweighted arithmetic mean over the list of
all folder confidences followed by all file-action confidences, and it is `0`
when that list is empty (in particular for a plan with no folders and hence
no file actions). -/
theorem c7_confidence_mean_is_unweighted_mean (files : List FileMetadata) (aiR : AIResult)
    (now : Nat) :
    (allConfidences aiR = [] →
        (createArchivePlan files aiR now).metrics.confidence_mean = 0)
    ∧ (allConfidences aiR ≠ [] →
        (createArchivePlan files aiR now).metrics.confidence_mean
          = (allConfidences aiR).sum / (allConfidences aiR).length) := by
  constructor
  · intro h
    rw [createArchivePlan_confidence_mean, h]
    rfl
  · intro h
    rw [createArchivePlan_confidence_mean, if_pos]
    exact List.length_pos.mpr h

/-- Witness for C7 at a concrete classification: one folder of confidence 1/2
with one file of confidence 1/4 gives mean (1/2 + 1/4) / 2 = 3/8. -/
theorem c7_confidence_mean_witness :
    allConfidences singleFolderResult ≠ []
    ∧ (createArchivePlan [] singleFolderResult 0).metrics.confidence_mean
        = (allConfidences singleFolderResult).sum / (allConfidences singleFolderResult).length
    ∧ (createArchivePlan [] singleFolderResult 0).metrics.confidence_mean = 3 / 8 := by
  refine ⟨by decide, (c7_confidence_mean_is_unweighted_mean [] singleFolderResult 0).2 (by decide), ?_⟩
  norm_num [createArchivePlan_confidence_mean, allConfidences, singleFolderResult]

/-! ## C6 -/

/-- Recording one activity never leaves more than 100 records. -/
lemma addActivity_length_le (s : AppState) (r : ActivityRecord) :
    (appReducer s (.ADD_ACTIVITY r)).activityHistory.length ≤ 100 := by
  simp only [appReducer, List.length_cons, List.length_take]
  omega

/-- Recording any nonempty sequence of activities leaves at most 100
records, whatever history it starts from. -/
lemma foldl_addActivity_length_le (recs : List ActivityRecord) (s : AppState)
    (h : recs ≠ []) :
    ((recs.foldl (fun st r => appReducer st (.ADD_ACTIVITY r)) s).activityHistory.length ≤ 100) := by
  induction recs generalizing s with
  | nil => exact absurd rfl h
  | cons r rest ih =>
    rw [List.foldl_cons]
    cases rest with
    | nil => exact addActivity_length_le s r
    | cons r2 rest2 => exact ih _ (by simp)

/-- C6: after any nonempty sequence of `record()` calls from any starting
history the ledger holds at most 100 records; the record just stamped by
`addActivity` sits at index 0; and on overflow (a full history of 100)
exactly the oldest record is discarded, while a history of at most 99 is
kept whole. -/
theorem c6_ledger_ring_buffer (s : AppState) (nowMs : Nat) (rand : String)
    (a : ActivityInput) (recs : List ActivityRecord) :
    ((appReducer s (.ADD_ACTIVITY (addActivity nowMs rand a))).activityHistory.length ≤ 100)
    ∧ ((appReducer s (.ADD_ACTIVITY (addActivity nowMs rand a))).activityHistory.head?
        = some (addActivity nowMs rand a))
    ∧ (s.activityHistory.length ≤ 99 →
        (appReducer s (.ADD_ACTIVITY (addActivity nowMs rand a))).activityHistory
          = addActivity nowMs rand a :: s.activityHistory)
    ∧ (s.activityHistory.length = 100 →
        (appReducer s (.ADD_ACTIVITY (addActivity nowMs rand a))).activityHistory
          = addActivity nowMs rand a :: s.activityHistory.dropLast)
    ∧ (recs ≠ [] →
        ((recs.foldl (fun st r => appReducer st (.ADD_ACTIVITY r)) s).activityHistory.length
          ≤ 100)) := by
  refine ⟨addActivity_length_le s _, rfl, ?_, ?_, foldl_addActivity_length_le recs s⟩
  · intro h
    simp only [appReducer]
    rw [List.take_of_length_le h]
  · intro h
    simp only [appReducer]
    rw [List.dropLast_eq_take, h]

/-- A minimal stamped record used to exercise the ledger theorems. -/
def probeActivity : ActivityInput :=
  { type := .file_upload, status := .completed, title := "Files Uploaded",
    description := "1 file uploaded for analysis", metadata := none }

/-- The initial application state (`AppContext.tsx` lines 31-43), with the
concrete default provider rows elided to the fields the ledger touches. -/
def initialState : AppState :=
  { currentProvider := none
    providers :=
      [ { id := "openai", name := "OpenAI", apiKey := "", baseUrl := none, model := none,
          isConnected := false },
        { id := "openrouter", name := "OpenRouter", apiKey := "",
          baseUrl := some "https://openrouter.ai/api/v1",
          model := some "meta-llama/llama-4-maverick:free", isConnected := false },
        { id := "ollama", name := "Ollama", apiKey := "",
          baseUrl := some "http://localhost:11434", model := none, isConnected := false } ]
    currentPlan := none
    savedPlans := []
    activityHistory := []
    isAnalyzing := false
    isPlanExecuting := false }

/-- Witness for C6: recording once into the empty initial history keeps it
(≤ 99), bounds it by 100, and puts the stamped record at index 0. -/
theorem c6_ledger_ring_buffer_witness :
    initialState.activityHistory.length ≤ 99
    ∧ [addActivity 0 "r" probeActivity] ≠ ([] : List ActivityRecord)
    ∧ ((appReducer initialState
          (.ADD_ACTIVITY (addActivity 0 "r" probeActivity))).activityHistory
        = addActivity 0 "r" probeActivity :: initialState.activityHistory) :=
  ⟨by decide, by decide,
    (c6_ledger_ring_buffer initialState 0 "r" probeActivity
      [addActivity 0 "r" probeActivity]).2.2.1 (by decide)⟩

/-! ## C9 -/

/-- C9 as stated is false on the code: date bucketing is calendar-based, not
duration-based, so at a viewing time 10 minutes after local midnight
(minute 14410 of the model clock, day 10) an activity from 30 minutes
earlier falls on the previous calendar day and buckets as "Yesterday", not
"Today". -/
theorem c9_counterexample :
    dateKey 14410 (14410 - 30) = DateBucket.yesterday
    ∧ dateKey 14410 (14410 - 30) ≠ DateBucket.today := by
  refine ⟨by decide, by decide⟩

/-- C9 (amended): for a viewing time at least 30 minutes past local midnight
an activity 30 minutes old buckets as "Today"; for one at least an hour past
midnight an activity 25 hours old buckets as "Yesterday"; and for every
viewing time an activity exactly 3 days old buckets as its weekday name and
one exactly 10 days old as an absolute date.  (`14400 ≤ now` keeps every
offset inside the model clock.) -/
theorem c9_date_buckets (now : Nat) (h : 14400 ≤ now) :
    (30 ≤ now % 1440 → dateKey now (now - 30) = DateBucket.today)
    ∧ (60 ≤ now % 1440 → dateKey now (now - 1500) = DateBucket.yesterday)
    ∧ dateKey now (now - 3 * 1440) = DateBucket.weekday (calendarDay now - 3)
    ∧ dateKey now (now - 10 * 1440) = DateBucket.absolute (calendarDay now - 10) := by
  refine ⟨?_, ?_, ?_, ?_⟩
  · intro ht
    have h30 : (now - 30) / 1440 = now / 1440 := by omega
    simp [dateKey, isToday, calendarDay, h30]
  · intro ht
    have hno : ¬((now - 1500) / 1440 = now / 1440) := by omega
    have hyes : (now - 1500) / 1440 + 1 = now / 1440 := by omega
    simp [dateKey, isToday, isYesterday, calendarDay, hno, hyes]
  · have h1 : ¬(now / 1440 - 3 = now / 1440) := by omega
    have h2 : ¬(now / 1440 - 3 + 1 = now / 1440) := by omega
    have h3 : now - 3 * 1440 > now - 7 * 1440 := by omega
    have h4 : (now - 3 * 1440) / 1440 = now / 1440 - 3 := by omega
    simp [dateKey, isToday, isYesterday, subDays, calendarDay, h1, h2, h3, h4]
  · have h1 : ¬(now / 1440 - 10 = now / 1440) := by omega
    have h2 : ¬(now / 1440 - 10 + 1 = now / 1440) := by omega
    have h3 : ¬(now - 10 * 1440 > now - 7 * 1440) := by omega
    have h4 : (now - 10 * 1440) / 1440 = now / 1440 - 10 := by omega
    simp [dateKey, isToday, isYesterday, subDays, calendarDay, h1, h2, h3, h4]

/-- Witness for the amended C9 at noon of day 10 (minute 15120): all four
buckets come out as the amended claim says. -/
theorem c9_date_buckets_witness :
    (14400 ≤ 15120 ∧ 30 ≤ 15120 % 1440 ∧ 60 ≤ 15120 % 1440)
    ∧ dateKey 15120 (15120 - 30) = DateBucket.today
    ∧ dateKey 15120 (15120 - 1500) = DateBucket.yesterday
    ∧ dateKey 15120 (15120 - 3 * 1440) = DateBucket.weekday (calendarDay 15120 - 3)
    ∧ dateKey 15120 (15120 - 10 * 1440) = DateBucket.absolute (calendarDay 15120 - 10) :=
  ⟨by decide,
    (c9_date_buckets 15120 (by decide)).1 (by decide),
    (c9_date_buckets 15120 (by decide)).2.1 (by decide),
    (c9_date_buckets 15120 (by decide)).2.2.1,
    (c9_date_buckets 15120 (by decide)).2.2.2⟩

/-! ## Helper lemmas about the execution engine -/

/-- The net effect of `executeStep` on the step it ran: completed with full
progress on success, failed with the caught message (and the progress the
catch found, 0) on a throw. -/
def finishedStep (oracle : Nat → Option JsThrown) (i : Nat) (st : ExecutionStep) :
    ExecutionStep :=
  match oracle i with
  | none => { st with status := .completed, progress := 100 }
  | some e => { st with status := .failed, progress := 0, error := some (caughtMessage e) }

/-- Reading an entry of an `updateStep` result. -/
lemma getElem?_updateStep (f : ExecutionStep → ExecutionStep) (i : Nat)
    (l : List ExecutionStep) (j : Nat) :
    (updateStep f i l)[j]? = if j = i then (l[j]?).map f else l[j]? := by
  induction l generalizing i j with
  | nil => simp [updateStep]
  | cons st rest ih =>
    cases i with
    | zero =>
      cases j with
      | zero => simp [updateStep]
      | succ j => simp [updateStep]
    | succ i =>
      cases j with
      | zero => simp [updateStep]
      | succ j => simpa [updateStep] using ih i j

/-- Updating one step preserves the number of steps. -/
lemma length_updateStep (f : ExecutionStep → ExecutionStep) (i : Nat)
    (l : List ExecutionStep) : (updateStep f i l).length = l.length := by
  induction l generalizing i with
  | nil => cases i <;> rfl
  | cons st rest ih =>
    cases i with
    | zero => rfl
    | succ i => simpa [updateStep] using ih i

/-- Running one step changes no executor flag, only the step list. -/
lemma executeStep_flags (oracle : Nat → Option JsThrown) (i : Nat) (s : ExecState) :
    ((executeStep oracle i s).1).isExecuting = s.isExecuting
    ∧ ((executeStep oracle i s).1).overallProgress = s.overallProgress
    ∧ ((executeStep oracle i s).1).steps.length = s.steps.length := by
  unfold executeStep
  cases hs : s.steps[i]? with
  | none => exact ⟨rfl, rfl, rfl⟩
  | some st =>
    cases ho : oracle i with
    | none =>
      refine ⟨rfl, rfl, ?_⟩
      simp [completeStep, setStepProgress, beginStep, length_updateStep]
    | some e =>
      refine ⟨rfl, rfl, ?_⟩
      simp [failStep, beginStep, length_updateStep]

/-- Reading a step after `executeStep`: the executed index is finished, the
rest are untouched. -/
lemma getElem?_executeStep (oracle : Nat → Option JsThrown) (i : Nat) (s : ExecState)
    (j : Nat) :
    ((executeStep oracle i s).1).steps[j]?
      = if j = i then (s.steps[j]?).map (finishedStep oracle i) else s.steps[j]? := by
  unfold executeStep
  by_cases hji : j = i
  · subst hji
    rw [if_pos rfl]
    cases hs : s.steps[j]? with
    | none => simp [hs]
    | some st =>
      cases ho : oracle j with
      | none =>
        simp only [completeStep, setStepProgress, beginStep, getElem?_updateStep, if_pos rfl,
          Option.map_map, hs]
        simp [finishedStep, ho, Function.comp]
      | some e =>
        simp only [failStep, beginStep, getElem?_updateStep, if_pos rfl,
          Option.map_map, hs]
        simp [finishedStep, ho, Function.comp]
  · rw [if_neg hji]
    cases hs : s.steps[i]? with
    | none => rfl
    | some st =>
      cases ho : oracle i with
      | none =>
        simp [completeStep, setStepProgress, beginStep, getElem?_updateStep, hji]
      | some e =>
        simp [failStep, beginStep, getElem?_updateStep, hji]

/-- The execution loop finishes exactly the steps whose indices fall inside
its remaining iteration window and leaves every other step unchanged. -/
lemma getElem?_runFrom (oracle : Nat → Option JsThrown) (fuel : Nat) :
    ∀ (i : Nat) (s : ExecState) (j : Nat), s.isExecuting = true →
      (runFrom oracle fuel i s).steps[j]?
        = if i ≤ j ∧ j < i + fuel then (s.steps[j]?).map (finishedStep oracle j)
          else s.steps[j]? := by
  induction fuel with
  | zero =>
    intro i s j _
    rw [if_neg (by omega)]
    rfl
  | succ fuel ih =>
    intro i s j hexec
    rw [runFrom, if_pos hexec]
    have hexec2 : (recordOverall i (executeStep oracle i (setCurrent i s)).1).isExecuting
        = true := by
      simpa [recordOverall, setCurrent] using (executeStep_flags oracle i (setCurrent i s)).1
        |>.trans (by simp [setCurrent, hexec])
    rw [ih (i + 1) _ j hexec2]
    have hsteps : (recordOverall i (executeStep oracle i (setCurrent i s)).1).steps[j]?
        = if j = i then (s.steps[j]?).map (finishedStep oracle i) else s.steps[j]? := by
      simpa [recordOverall, setCurrent] using getElem?_executeStep oracle i (setCurrent i s) j
    by_cases hji : j = i
    · subst hji
      rw [if_neg (by omega), hsteps, if_pos rfl, if_pos (by omega)]
    · by_cases hin : i + 1 ≤ j ∧ j < i + 1 + fuel
      · rw [if_pos hin, hsteps, if_neg hji, if_pos (by omega)]
      · rw [if_neg hin, hsteps, if_neg hji, if_neg (by omega)]

/-- Reading an entry of the initial step list. -/
lemma getElem?_initStepsFrom (ops : List Operation) :
    ∀ (i j : Nat), (initStepsFrom i ops)[j]?
      = (ops[j]?).map (fun op =>
          { id := "step-" ++ toString (i + j), operation := op, status := .pending,
            progress := 0, error := none }) := by
  induction ops with
  | nil => intro i j; simp [initStepsFrom]
  | cons op rest ih =>
    intro i j
    cases j with
    | zero => simp [initStepsFrom]
    | succ j =>
      rw [initStepsFrom]
      simpa [Nat.add_assoc, Nat.add_comm 1 j] using ih (i + 1) j

/-- The initial step list has one step per operation. -/
lemma length_initStepsFrom (ops : List Operation) :
    ∀ i : Nat, (initStepsFrom i ops).length = ops.length := by
  induction ops with
  | nil => intro i; rfl
  | cons op rest ih => intro i; simpa [initStepsFrom] using ih (i + 1)

/-! ## C8 -/

/-- C8: with no target location selected, `startExecution` fails with
`NoLocationSelected` and the state — every step included — is unchanged;
with a location selected it reports no error and runs step 0 to a terminal
status (completed or failed). -/
theorem c8_requires_location (s : ExecState) (oracle : Nat → Option JsThrown) :
    (s.locationSelected = false →
      startExecution oracle s = (s, some .noLocationSelected))
    ∧ (s.locationSelected = true →
        (startExecution oracle s).2 = none
        ∧ ∀ st : ExecutionStep, s.steps[0]? = some st →
            (startExecution oracle s).1.steps[0]? = some (finishedStep oracle 0 st)
            ∧ ((finishedStep oracle 0 st).status = .completed
                ∨ (finishedStep oracle 0 st).status = .failed)) := by
  constructor
  · intro h
    rw [startExecution, if_neg (by simp [h])]
  · intro h
    constructor
    · rw [startExecution, if_pos h]
    · intro st hst
      have hlen : 0 < s.steps.length := by
        rcases List.getElem?_eq_some_iff.mp hst with ⟨hl, -⟩
        exact hl
      constructor
      · rw [startExecution, if_pos h]
        simp only
        rw [getElem?_runFrom oracle _ 0 _ 0 rfl, if_pos (by simpa using hlen)]
        simp [hst]
      · unfold finishedStep
        cases oracle 0 with
        | none => exact Or.inl rfl
        | some e => exact Or.inr rfl

/-- A concrete two-operation plan. -/
def probeOps : List Operation :=
  [ { op := "create_folder", target := "Documents", items := [], note := none, size_change := 0 },
    { op := "move", target := "Documents", items := ["a.txt"], note := none, size_change := 0 } ]

/-- Witness for C8: on the fresh `probeOps` executor with a location
selected, `start()` reports no error and step 0 reaches a terminal status;
with no location selected the state is returned untouched with the
`NoLocationSelected` failure. -/
theorem c8_requires_location_witness :
    (initExecState probeOps false).locationSelected = false
    ∧ startExecution (fun _ => none) (initExecState probeOps false)
        = (initExecState probeOps false, some .noLocationSelected)
    ∧ (initExecState probeOps true).locationSelected = true
    ∧ (startExecution (fun _ => none) (initExecState probeOps true)).2 = none :=
  ⟨rfl,
    (c8_requires_location (initExecState probeOps false) (fun _ => none)).1 rfl,
    rfl,
    ((c8_requires_location (initExecState probeOps true) (fun _ => none)).2 rfl).1⟩

/-! ## C5 -/

/-- Oracle that throws an `Error` with an empty message on step 0 and lets
every other step succeed. -/
def emptyMessageOracle : Nat → Option JsThrown :=
  fun k => if k = 0 then some (some "") else none

/-- C5 as stated is false on the code in one corner: the catch block records
`error.message` verbatim, so a thrown `Error` whose message is the empty
string leaves the failed step with an empty error message.  The rest of the
claim is visible in the same run: step 0 fails and the later step still
executes to completion. -/
theorem c5_counterexample :
    ((startExecution emptyMessageOracle (initExecState probeOps true)).1.steps[0]?).map
        ExecutionStep.status = some OperationStatus.failed
    ∧ ((startExecution emptyMessageOracle (initExecState probeOps true)).1.steps[0]?).map
        ExecutionStep.error = some (some "")
    ∧ String.length "" = 0
    ∧ ((startExecution emptyMessageOracle (initExecState probeOps true)).1.steps[1]?).map
        ExecutionStep.status = some OperationStatus.completed := by
  refine ⟨by decide, by decide, rfl, by decide⟩

/-- C5 (amended): a step whose body throws ends failed with exactly the
thrown `Error`'s message (`"Unknown error"`, which is non-empty, for a
non-`Error` value) — non-empty whenever the thrown message is — and every
other step of the plan is still executed in the same single pass: each
non-throwing step ends completed and each throwing step ends failed, with no
step skipped or retried. -/
theorem c5_partial_failure (ops : List Operation) (oracle : Nat → Option JsThrown)
    (j : Nat) (e : JsThrown) (hj : j < ops.length) (he : oracle j = some e) :
    (((startExecution oracle (initExecState ops true)).1.steps[j]?).map
        ExecutionStep.status = some OperationStatus.failed)
    ∧ (((startExecution oracle (initExecState ops true)).1.steps[j]?).map
        ExecutionStep.error = some (some (caughtMessage e)))
    ∧ caughtMessage none = "Unknown error"
    ∧ (∀ k : Nat, k < ops.length →
        ((startExecution oracle (initExecState ops true)).1.steps[k]?).map
            ExecutionStep.status
          = some (if oracle k = none then OperationStatus.completed
              else OperationStatus.failed)) := by
  have hfinal : ∀ k : Nat, k < ops.length →
      (startExecution oracle (initExecState ops true)).1.steps[k]?
        = ((initExecState ops true).steps[k]?).map (finishedStep oracle k) := by
    intro k hk
    have hloc : (initExecState ops true).locationSelected = true := rfl
    rw [startExecution, if_pos hloc]
    simp only
    rw [getElem?_runFrom oracle _ 0 _ k rfl,
      if_pos (by simp [initExecState, length_initStepsFrom]; omega)]
  have hinit : ∀ k : Nat, k < ops.length →
      ∃ st : ExecutionStep, (initExecState ops true).steps[k]? = some st := by
    intro k hk
    rw [initExecState]
    simp only [getElem?_initStepsFrom]
    rcases List.getElem?_eq_some_iff.mpr ⟨hk, rfl⟩ with h
    rw [h]
    exact ⟨_, rfl⟩
  refine ⟨?_, ?_, rfl, ?_⟩
  · obtain ⟨st, hst⟩ := hinit j hj
    rw [hfinal j hj, hst]
    simp [finishedStep, he]
  · obtain ⟨st, hst⟩ := hinit j hj
    rw [hfinal j hj, hst]
    simp [finishedStep, he]
  · intro k hk
    obtain ⟨st, hst⟩ := hinit k hk
    rw [hfinal k hk, hst]
    cases ho : oracle k with
    | none => simp [finishedStep, ho]
    | some e2 => simp [finishedStep, ho]

/-- Witness for the amended C5 on the two-operation plan with an oracle that
throws a non-`Error` value on step 0: step 0 fails with the non-empty
message "Unknown error" and step 1 still completes. -/
theorem c5_partial_failure_witness :
    (0 < probeOps.length ∧ (fun k => if k = 0 then some none else none) 0 = some (none : JsThrown))
    ∧ (((startExecution (fun k => if k = 0 then some none else none)
          (initExecState probeOps true)).1.steps[0]?).map ExecutionStep.status
        = some OperationStatus.failed)
    ∧ (((startExecution (fun k => if k = 0 then some none else none)
          (initExecState probeOps true)).1.steps[0]?).map ExecutionStep.error
        = some (some (caughtMessage none))) :=
  ⟨⟨by decide, rfl⟩,
    (c5_partial_failure probeOps (fun k => if k = 0 then some none else none) 0 none
      (by decide) rfl).1,
    (c5_partial_failure probeOps (fun k => if k = 0 then some none else none) 0 none
      (by decide) rfl).2.1⟩

/-! ## C4 -/

/-- C4: on a 3-operation plan, when step 1 (index 0) has completed — with the
overall progress update that follows it — and step 2 (index 1) has been
dequeued and is in progress, invoking `stopExecution` leaves step 1
completed, turns steps 2 and 3 cancelled, and leaves the reported overall
progress at exactly (1/3)·100 = 100/3 percent, reflecting the single
terminal step out of three at the moment of stop. -/
theorem c4_stop_cancels_remaining (ops : List Operation) (oracle : Nat → Option JsThrown)
    (h3 : ops.length = 3) (h0 : oracle 0 = none) :
    ((stopExecution (beginStep 1 (setCurrent 1 (recordOverall 0
        (executeStep oracle 0 (setCurrent 0
          { initExecState ops true with isExecuting := true })).1)))).steps.map
      ExecutionStep.status = [.completed, .cancelled, .cancelled])
    ∧ (stopExecution (beginStep 1 (setCurrent 1 (recordOverall 0
        (executeStep oracle 0 (setCurrent 0
          { initExecState ops true with isExecuting := true })).1)))).overallProgress
        = 100 / 3 := by
  obtain ⟨a, b, c, rfl⟩ := List.length_eq_three.mp h3
  constructor
  · simp [initExecState, initStepsFrom, executeStep, beginStep, setCurrent, recordOverall,
      completeStep, setStepProgress, failStep, updateStep, stopExecution, h0]
  · simp [initExecState, initStepsFrom, executeStep, beginStep, setCurrent, recordOverall,
      completeStep, setStepProgress, failStep, updateStep, stopExecution, h0]
    norm_num

/-- A concrete three-operation plan. -/
def probeOps3 : List Operation :=
  [ { op := "create_folder", target := "Documents", items := [], note := none, size_change := 0 },
    { op := "move", target := "Documents", items := ["a.txt"], note := none, size_change := 0 },
    { op := "move", target := "Documents", items := ["b.txt"], note := none, size_change := 0 } ]

/-- Witness for C4 on a concrete 3-operation plan with a successful first
step. -/
theorem c4_stop_cancels_remaining_witness :
    (probeOps3.length = 3 ∧ (fun _ : Nat => (none : Option JsThrown)) 0 = none)
    ∧ ((stopExecution (beginStep 1 (setCurrent 1 (recordOverall 0
        (executeStep (fun _ => none) 0 (setCurrent 0
          { initExecState probeOps3 true with isExecuting := true })).1)))).steps.map
      ExecutionStep.status = [.completed, .cancelled, .cancelled])
    ∧ (stopExecution (beginStep 1 (setCurrent 1 (recordOverall 0
        (executeStep (fun _ => none) 0 (setCurrent 0
          { initExecState probeOps3 true with isExecuting := true })).1)))).overallProgress
        = 100 / 3 :=
  ⟨⟨rfl, rfl⟩,
    (c4_stop_cancels_remaining probeOps3 (fun _ => none) rfl rfl).1,
    (c4_stop_cancels_remaining probeOps3 (fun _ => none) rfl rfl).2⟩

/-! ## C10: helper lemmas about characters and the sanitizer -/

/-- Packing a small code point and reading it back is the identity. -/
lemma toNat_ofNat_small {n : Nat} (h : n < 55296) : (Char.ofNat n).toNat = n := by
  rw [Char.ofNat, dif_pos (Or.inl h)]
  rfl

/-- A character in the lowercase ASCII letter range is not whitespace. -/
lemma isWhitespace_eq_false_of_lower_range {c : Char} (h1 : 97 ≤ c.toNat)
    (h2 : c.toNat ≤ 122) : c.isWhitespace = false := by
  rw [Char.isWhitespace]
  have hs : ¬(c = ' ') := by rintro rfl; exact absurd h1 (by decide)
  have ht : ¬(c = '\t') := by rintro rfl; exact absurd h1 (by decide)
  have hr : ¬(c = '\r') := by rintro rfl; exact absurd h1 (by decide)
  have hn : ¬(c = '\n') := by rintro rfl; exact absurd h1 (by decide)
  simp [hs, ht, hr, hn]

/-- A character in the lowercase ASCII letter range is not one of the
sanitizer's illegal characters. -/
lemma illegalChar_eq_false_of_lower_range {c : Char} (h1 : 97 ≤ c.toNat)
    (h2 : c.toNat ≤ 122) : illegalChar c = false := by
  rw [illegalChar]
  have g1 : ¬(c = '<') := by rintro rfl; exact absurd h1 (by decide)
  have g2 : ¬(c = '>') := by rintro rfl; exact absurd h1 (by decide)
  have g3 : ¬(c = ':') := by rintro rfl; exact absurd h1 (by decide)
  have g4 : ¬(c = '"') := by rintro rfl; exact absurd h1 (by decide)
  have g5 : ¬(c = '/') := by rintro rfl; exact absurd h1 (by decide)
  have g6 : ¬(c = '\\') := by rintro rfl; exact absurd h1 (by decide)
  have g7 : ¬(c = '|') := by rintro rfl; exact absurd h2 (by decide)
  have g8 : ¬(c = '?') := by rintro rfl; exact absurd h1 (by decide)
  have g9 : ¬(c = '*') := by rintro rfl; exact absurd h1 (by decide)
  simp [g1, g2, g3, g4, g5, g6, g7, g8, g9]

/-- When the uppercase branch of `Char.toLower` fires, the result's code is
the input's plus 32, landing among lowercase ASCII letters. -/
lemma toNat_toLower_of_upper {c : Char} (h1 : 65 ≤ c.toNat) (h2 : c.toNat ≤ 90) :
    (Char.toLower c).toNat = c.toNat + 32 := by
  rw [Char.toLower, if_pos ⟨h1, h2⟩]
  exact toNat_ofNat_small (by omega)

/-- Outside the uppercase ASCII range the simple lowercase map is the
identity. -/
lemma toLower_eq_self_of_not_upper {c : Char} (h : ¬(65 ≤ c.toNat ∧ c.toNat ≤ 90)) :
    Char.toLower c = c := by
  rw [Char.toLower, if_neg h]

/-- The simple lowercase map is idempotent. -/
lemma toLower_toLower (c : Char) : Char.toLower (Char.toLower c) = Char.toLower c := by
  by_cases h : 65 ≤ c.toNat ∧ c.toNat ≤ 90
  · have := toNat_toLower_of_upper h.1 h.2
    exact toLower_eq_self_of_not_upper (by omega)
  · have h1 := toLower_eq_self_of_not_upper h
    rw [h1, h1]

/-- Lowercasing cannot create whitespace. -/
lemma isWhitespace_toLower {c : Char} (h : c.isWhitespace = false) :
    (Char.toLower c).isWhitespace = false := by
  by_cases hu : 65 ≤ c.toNat ∧ c.toNat ≤ 90
  · have := toNat_toLower_of_upper hu.1 hu.2
    exact isWhitespace_eq_false_of_lower_range (by omega) (by omega)
  · rw [toLower_eq_self_of_not_upper hu]; exact h

/-- Lowercasing cannot create an illegal character. -/
lemma illegalChar_toLower {c : Char} (h : illegalChar c = false) :
    illegalChar (Char.toLower c) = false := by
  by_cases hu : 65 ≤ c.toNat ∧ c.toNat ≤ 90
  · have := toNat_toLower_of_upper hu.1 hu.2
    exact illegalChar_eq_false_of_lower_range (by omega) (by omega)
  · rw [toLower_eq_self_of_not_upper hu]; exact h

/-- Replacing an illegal character always yields a legal one. -/
lemma illegalChar_replaceIllegalChar (c : Char) :
    illegalChar (replaceIllegalChar c) = false := by
  rw [replaceIllegalChar]
  by_cases h : illegalChar c = true
  · rw [if_pos h]; decide
  · rw [if_neg h]; exact Bool.not_eq_true _ ▸ (Bool.eq_false_iff.mpr h)

/-- Replacement is the identity on a list free of illegal characters. -/
lemma map_replaceIllegalChar_eq_self {l : List Char}
    (h : ∀ c ∈ l, illegalChar c = false) : l.map replaceIllegalChar = l := by
  induction l with
  | nil => rfl
  | cons c cs ih =>
    rw [List.map_cons, ih (fun d hd => h d (List.mem_cons_of_mem c hd))]
    have hc := h c (List.mem_cons_self c cs)
    rw [replaceIllegalChar, hc]
    rfl

/-- Whitespace collapsing is the identity on a whitespace-free list,
whatever run state it starts in. -/
lemma collapseWhitespace_eq_self {l : List Char}
    (h : ∀ c ∈ l, c.isWhitespace = false) : ∀ b : Bool, collapseWhitespace b l = l := by
  induction l with
  | nil => intro b; rfl
  | cons c cs ih =>
    intro b
    rw [collapseWhitespace, h c (List.mem_cons_self c cs), if_neg (by simp),
      ih (fun d hd => h d (List.mem_cons_of_mem c hd)) false]

/-- Every character produced by whitespace collapsing is an underscore or a
non-whitespace character of the input. -/
lemma mem_collapseWhitespace {c : Char} :
    ∀ {b : Bool} {l : List Char}, c ∈ collapseWhitespace b l →
      c = '_' ∨ (c ∈ l ∧ c.isWhitespace = false) := by
  intro b l
  induction l generalizing b with
  | nil => intro h; cases b <;> simp [collapseWhitespace] at h
  | cons d cs ih =>
    intro h
    rw [collapseWhitespace] at h
    by_cases hd : d.isWhitespace = true
    · rw [if_pos hd] at h
      cases b with
      | true =>
        rcases ih h with h1 | ⟨h2, h3⟩
        · exact Or.inl h1
        · exact Or.inr ⟨List.mem_cons_of_mem d h2, h3⟩
      | false =>
        rcases List.mem_cons.mp h with h1 | h1
        · exact Or.inl h1
        · rcases ih h1 with h2 | ⟨h3, h4⟩
          · exact Or.inl h2
          · exact Or.inr ⟨List.mem_cons_of_mem d h3, h4⟩
    · rw [if_neg hd] at h
      rcases List.mem_cons.mp h with h1 | h1
      · subst h1
        exact Or.inr ⟨List.mem_cons_self c cs, Bool.eq_false_iff.mpr hd⟩
      · rcases ih h1 with h2 | ⟨h3, h4⟩
        · exact Or.inl h2
        · exact Or.inr ⟨List.mem_cons_of_mem d h3, h4⟩

/-- Lowercasing a character other than U+0130 cannot produce U+0130. -/
lemma toLower_ne_dotted_capital_i {c : Char} (h : ¬ c = 'İ') : ¬ Char.toLower c = 'İ' := by
  by_cases hu : 65 ≤ c.toNat ∧ c.toNat ≤ 90
  · have ht := toNat_toLower_of_upper hu.1 hu.2
    intro heq
    have hnat : (Char.toLower c).toNat = Char.toNat 'İ' := congrArg Char.toNat heq
    have hint : Char.toNat 'İ' = 304 := by decide
    omega
  · rw [toLower_eq_self_of_not_upper hu]; exact h

/-- Every character produced by the full lowercase map of a legal,
non-whitespace character is itself legal, non-whitespace, and fixed by the
full lowercase map. -/
lemma mem_jsToLowerChar_props {c d : Char} (hd : d ∈ jsToLowerChar c) :
    (illegalChar c = false → illegalChar d = false)
    ∧ (c.isWhitespace = false → d.isWhitespace = false)
    ∧ jsToLowerChar d = [d] := by
  by_cases hc : c = 'İ'
  · subst hc
    rw [jsToLowerChar, if_pos rfl] at hd
    rcases List.mem_cons.mp hd with rfl | hd2
    · exact ⟨fun _ => by decide, fun _ => by decide, by decide⟩
    · rcases List.mem_cons.mp hd2 with rfl | hd3
      · exact ⟨fun _ => by decide, fun _ => by decide, by decide⟩
      · exact absurd hd3 (by simp)
  · rw [jsToLowerChar, if_neg hc] at hd
    rcases List.mem_cons.mp hd with rfl | hd2
    · refine ⟨illegalChar_toLower, isWhitespace_toLower, ?_⟩
      rw [jsToLowerChar, if_neg (toLower_ne_dotted_capital_i hc), toLower_toLower]
    · exact absurd hd2 (by simp)

/-- Lowercasing a list each of whose characters is fixed by the full
lowercase map is the identity. -/
lemma flatMap_jsToLowerChar_eq_self {l : List Char}
    (h : ∀ c ∈ l, jsToLowerChar c = [c]) : l.flatMap jsToLowerChar = l := by
  induction l with
  | nil => rfl
  | cons c cs ih =>
    rw [List.flatMap_cons, h c (List.mem_cons_self c cs),
      ih (fun d hd => h d (List.mem_cons_of_mem c hd))]
    rfl

/-- Every character of sanitizer output is legal, non-whitespace, and fixed
by the full lowercase map. -/
lemma sanitizeChars_props {l : List Char} :
    ∀ d ∈ sanitizeChars l,
      illegalChar d = false ∧ d.isWhitespace = false ∧ jsToLowerChar d = [d] := by
  intro d hd
  rw [sanitizeChars] at hd
  obtain ⟨c, hc, hdc⟩ := List.mem_flatMap.mp hd
  have hc2 := List.mem_of_mem_take hc
  have hprops := mem_jsToLowerChar_props hdc
  have hcIllegal : illegalChar c = false := by
    rcases mem_collapseWhitespace hc2 with h1 | ⟨h2, -⟩
    · subst h1; decide
    · obtain ⟨e, -, rfl⟩ := List.mem_map.mp h2
      exact illegalChar_replaceIllegalChar e
  have hcWs : c.isWhitespace = false := by
    rcases mem_collapseWhitespace hc2 with h1 | ⟨-, h3⟩
    · subst h1; decide
    · exact h3
  exact ⟨hprops.1 hcIllegal, hprops.2.1 hcWs, hprops.2.2⟩

/-- Re-sanitizing sanitizer output only re-applies the 50-character
truncation: the output has no illegal characters or whitespace and is fixed
by lowercasing, but may be longer than 50 characters when lowercasing
expanded U+0130 after the truncation. -/
lemma sanitizeChars_sanitizeChars (l : List Char) :
    sanitizeChars (sanitizeChars l) = (sanitizeChars l).take 50 := by
  conv_lhs => rw [sanitizeChars]
  rw [map_replaceIllegalChar_eq_self (fun c hc => (sanitizeChars_props c hc).1),
    collapseWhitespace_eq_self (fun c hc => (sanitizeChars_props c hc).2.1) false]
  exact flatMap_jsToLowerChar_eq_self
    (fun c hc => (sanitizeChars_props c (List.mem_of_mem_take hc)).2.2)

/-- C10 as stated is false on the code: `toLowerCase` runs after the
`substring(0, 50)` truncation and U+0130 lowercases to the two characters
U+0069 U+0307, so a name of fifty copies of 'İ' sanitizes to 100 characters,
and sanitizing that output truncates it back to 50 — the two applications
disagree. -/
theorem c10_counterexample :
    (sanitizeFolderName (String.mk (List.replicate 50 'İ'))).data.length = 100
    ∧ sanitizeFolderName (sanitizeFolderName (String.mk (List.replicate 50 'İ')))
        ≠ sanitizeFolderName (String.mk (List.replicate 50 'İ')) := by
  refine ⟨by decide, by decide⟩

/-- C10 (amended): re-sanitizing a sanitized name only re-applies the
50-character truncation — `sanitize (sanitize s)` is the first 50 characters
of `sanitize s` — so sanitization is idempotent exactly on the names whose
sanitized form stays within 50 characters, and fails only when lowercasing
expands a character (U+0130) past the truncation point. -/
theorem c10_sanitize_idempotent_upto_truncation (s : String) :
    sanitizeFolderName (sanitizeFolderName s)
      = String.mk ((sanitizeFolderName s).data.take 50)
    ∧ ((sanitizeFolderName s).data.length ≤ 50 →
        sanitizeFolderName (sanitizeFolderName s) = sanitizeFolderName s) := by
  constructor
  · unfold sanitizeFolderName
    exact congrArg String.mk (sanitizeChars_sanitizeChars s.data)
  · intro h
    unfold sanitizeFolderName
    exact congrArg String.mk
      ((sanitizeChars_sanitizeChars s.data).trans (List.take_of_length_le h))

/-- Witness for the amended C10: "My Docs" sanitizes to the 7-character
"my_docs", within the truncation limit, so re-sanitizing it changes
nothing. -/
theorem c10_sanitize_idempotent_upto_truncation_witness :
    (sanitizeFolderName "My Docs").data.length ≤ 50
    ∧ sanitizeFolderName (sanitizeFolderName "My Docs") = sanitizeFolderName "My Docs" :=
  ⟨by decide, (c10_sanitize_idempotent_upto_truncation "My Docs").2 (by decide)⟩

end DataOrganizer
